import Mathlib

/-!
# Verification of the voice-to-task pipeline

A shallow embedding, in Lean 4, of the voice-to-task pipeline of a to-do
application: the natural-language task segmenter (`TaskParser`), the speech
capture service (`SpeechService`), the microphone permission gate, and the
cloud transcription response parser (`CloudSpeechService`).

Modelling conventions:

* JavaScript strings are `List Char` (`Str`).  The handful of JS string/regex
  operations the sources use (trim, toLowerCase, `split`, `includes`,
  `String.prototype.replace` with the specific regexes appearing in the
  sources) are embedded as dedicated total functions, each documented with the
  exact JS expression it translates.
* Confidence scores, written as decimal literals `0.3 … 0.95` in the source,
  are embedded as natural numbers in hundredths (`30 … 95`); comparisons such
  as `confidence > 0.5` become `50 < confidence`.
* Code that can throw is embedded in `Except`; a `try { … } catch { … }`
  becomes a `match` on the `Except` value.
* Asynchronous callback dispatch is embedded by returning the list of
  callback events the call emits synchronously, in order.
-/

set_option maxRecDepth 40000

/-- JavaScript strings, embedded as lists of characters. -/
abbrev Str := List Char

/-! ## JS string and regex primitives -/

/-- The JS `\s` character class (and the character class used by
`String.prototype.trim`), restricted to its ASCII members; the sources only
ever feed speech transcripts and string literals through it. -/
def isJsWs (c : Char) : Bool :=
  c = ' ' || c = '\t' || c = '\n' || c = '\r' || c = '\x0b' || c = '\x0c'

/-- JS `String.prototype.trim`: strip leading and trailing whitespace. -/
def jsTrim (l : Str) : Str :=
  ((l.dropWhile isJsWs).reverse.dropWhile isJsWs).reverse

/-- JS `String.prototype.toLowerCase` (ASCII). -/
def toLowerStr (l : Str) : Str :=
  l.map Char.toLower

/-- Whether `pat` is a prefix of `l` (helper for `jsIncludes`). -/
def strStartsWith (pat l : Str) : Bool :=
  decide (l.take pat.length = pat)

/-- JS `String.prototype.includes`: substring test. -/
def jsIncludes (needle : Str) : Str → Bool
  | [] => decide (needle = [])
  | c :: cs => strStartsWith needle (c :: cs) || jsIncludes needle cs

/-- Matcher for the regex `\s+` at the current position: a maximal nonempty
run of whitespace.  Returns the number of characters matched. -/
def matchWsRun (l : Str) : Option Nat :=
  let n := (l.takeWhile isJsWs).length
  if n = 0 then none else some n

/-- Case-insensitive literal match at the current position (the `i` flag;
patterns are given in lower case).  Returns the number of characters
matched. -/
def matchLitCI (pat : Str) (l : Str) : Option Nat :=
  if (l.take pat.length).map Char.toLower = pat then some pat.length else none

/-- Matcher for the regex `[,;]\s*and\s+` at the current position.  The
greedy `\s*` needs no backtracking: no whitespace character can start
`and`. -/
def matchCommaAnd : Str → Option Nat
  | [] => none
  | c :: cs =>
    if c = ',' || c = ';' then
      let w1 := (cs.takeWhile isJsWs).length
      let r1 := cs.drop w1
      match matchLitCI "and".toList r1 with
      | some _ =>
        let r2 := r1.drop 3
        let w2 := (r2.takeWhile isJsWs).length
        if w2 = 0 then none else some (1 + w1 + 3 + w2)
      | none => none
    else none

/-- Matcher for the regex `\s*then\s+` at the current position.  Note the
source pattern has no word boundaries, so it also matches inside words. -/
def matchThenPat (l : Str) : Option Nat :=
  let w1 := (l.takeWhile isJsWs).length
  let r1 := l.drop w1
  match matchLitCI "then".toList r1 with
  | some _ =>
    let r2 := r1.drop 4
    let w2 := (r2.takeWhile isJsWs).length
    if w2 = 0 then none else some (w1 + 4 + w2)
  | none => none

/-- Matcher for the regex `\s*\.\s*and\s+` at the current position. -/
def matchDotAnd (l : Str) : Option Nat :=
  let w1 := (l.takeWhile isJsWs).length
  match l.drop w1 with
  | '.' :: r1 =>
    let w2 := (r1.takeWhile isJsWs).length
    let r2 := r1.drop w2
    match matchLitCI "and".toList r2 with
    | some _ =>
      let r3 := r2.drop 3
      let w3 := (r3.takeWhile isJsWs).length
      if w3 = 0 then none else some (w1 + 1 + w2 + 3 + w3)
    | none => none
  | _ => none

/-- One pass of JS `String.prototype.replace` with a global regex: scan left
to right; at each position attempt the match; on success emit the replacement
and resume after the match, otherwise copy one character.  Written with
explicit fuel so that it is structurally recursive (hence kernel-computable);
the fuel starts at `length + 1` and every step consumes at least one
character of the input, so the fuel never runs out. -/
def replaceScanFuel (tryAt : Str → Option Nat) (repl : Str) : Nat → Str → Str
  | _, [] => []
  | 0, l => l
  | fuel + 1, c :: cs =>
    match tryAt (c :: cs) with
    | some n => repl ++ replaceScanFuel tryAt repl fuel ((c :: cs).drop (max n 1))
    | none => c :: replaceScanFuel tryAt repl fuel cs

/-- JS `str.replace(regex-with-g-flag, repl)` for the matchers above. -/
def replaceScan (tryAt : Str → Option Nat) (repl : Str) (l : Str) : Str :=
  replaceScanFuel tryAt repl (l.length + 1) l

/-- JS `str.replace(/^(alt₁|alt₂|…)\s+/gi, '')`: with the `^` anchor and no
`m` flag the global replace strips at most one occurrence, at position 0.
The alternatives are attempted in order; if one matches but the following
`\s+` fails, the engine backtracks into the remaining alternatives, which
`findSome?` reproduces. -/
def stripLeadingAlt (alts : List Str) (l : Str) : Str :=
  match alts.findSome? (fun a =>
    match matchLitCI a l with
    | some n =>
      let r := l.drop n
      let w := (r.takeWhile isJsWs).length
      if w = 0 then none else some (n + w)
    | none => none) with
  | some n => l.drop n
  | none => l

/-- JS `str.replace(/^./, c => c.toUpperCase())`: upper-case the first
character; `.` does not match a line terminator, and an empty string is left
unchanged. -/
def capitalizeFirst : Str → Str
  | [] => []
  | c :: cs => if c = '\n' || c = '\r' then c :: cs else Char.toUpper c :: cs

/-- JS `str.split(sep)` with a single-character string separator: split at
every occurrence; adjacent separators produce empty pieces, and
`"".split(sep) = [""]`. -/
def splitCharAux (sep : Char) : Str → Str → List Str
  | [], acc => [acc.reverse]
  | c :: cs, acc =>
    if c = sep then acc.reverse :: splitCharAux sep cs []
    else splitCharAux sep cs (c :: acc)

/-- JS `str.split(c)` for a one-character separator. -/
def splitChar (sep : Char) (l : Str) : List Str :=
  splitCharAux sep l []

/-- JS `str.split(/[…]+/)`: a maximal run of separator characters is a single
separator, so runs never produce empty pieces between them; a leading or
trailing run still produces a leading/trailing empty piece. -/
def splitRunsAux (p : Char → Bool) : Str → Str → Bool → List Str
  | [], acc, _ => [acc.reverse]
  | c :: cs, acc, afterSep =>
    if p c then
      if afterSep then splitRunsAux p cs acc true
      else acc.reverse :: splitRunsAux p cs [] true
    else splitRunsAux p cs (c :: acc) false

/-- JS `str.split(/[…]+/)` where `p` recognises the separator characters. -/
def splitRuns (p : Char → Bool) (l : Str) : List Str :=
  splitRunsAux p l [] false

/-! ## TaskParser (`src/services/taskParser.ts`)

The task segmentation engine: `ParseOptions`, `ParseResult`, the strategy
functions and `parseTasksFromSpeech`, translated method by method. -/

/-- `enum ParseStrategy` from the source. -/
inductive ParseStrategy
  | SINGLE_TASK
  | CONJUNCTION_SPLIT
  | PUNCTUATION_SPLIT
  | ACTION_VERB_SPLIT
  | HYBRID
  | FALLBACK
deriving DecidableEq, Repr

/-- `ParseOptions`, with every field required (the constructor fills the
defaults, see `defaultParseOptions`).  `minTaskLength` and `maxTasks` are
embedded as naturals. -/
structure ParseOptions where
  minTaskLength : Nat
  maxTasks : Nat
  preserveOriginalOnFailure : Bool
  language : Str
deriving DecidableEq

/-- The defaults applied by `new TaskParser()`:
`{ minTaskLength: 3, maxTasks: 10, preserveOriginalOnFailure: true,
language: 'en' }`. -/
def defaultParseOptions : ParseOptions :=
  { minTaskLength := 3
    maxTasks := 10
    preserveOriginalOnFailure := true
    language := "en".toList }

/-- `ParseResult` from the source.  `confidence` is in hundredths. -/
structure ParseResult where
  tasks : List Str
  originalText : Str
  confidence : Nat
  strategy : ParseStrategy
  success : Bool
deriving DecidableEq

/-- The `CONJUNCTIONS` vocabulary, in source order. -/
def CONJUNCTIONS : List Str :=
  ["and", "then", "also", "plus", "after that", "next", "afterwards",
   "followed by", "as well as", "&", "+", "along with"].map String.toList

/-- The `ACTION_VERBS` vocabulary, in source order. -/
def ACTION_VERBS : List Str :=
  ["buy", "call", "email", "text", "schedule", "book", "reserve", "order",
   "pick up", "drop off", "visit", "go to", "check", "review", "finish",
   "complete", "start", "begin", "organize", "clean", "wash", "prepare",
   "make", "create", "write", "read", "send", "deliver", "return",
   "cancel", "confirm", "update", "remind", "remember", "pay",
   "transfer"].map String.toList

/-- The `SINGLE_TASK_INDICATORS` vocabulary, in source order. -/
def SINGLE_TASK_INDICATORS : List Str :=
  ["groceries:", "shopping list:", "items:", "things to",
   "remember to", "don\x27t forget", "note to self"].map String.toList

/-- `preprocessText`:
`text.trim().toLowerCase().replace(/\s+/g, ' ').replace(/[,;]\s*and\s+/gi,
' and ').replace(/\s*then\s+/gi, ' then ').replace(/\s*\.\s*and\s+/gi,
' and ').replace(/^(i need to|i have to|i want to|i should)\s+/gi, '')`. -/
def preprocessText (text : Str) : Str :=
  stripLeadingAlt (["i need to", "i have to", "i want to", "i should"].map String.toList)
    (replaceScan matchDotAnd " and ".toList
      (replaceScan matchThenPat " then ".toList
        (replaceScan matchCommaAnd " and ".toList
          (replaceScan matchWsRun " ".toList
            (toLowerStr (jsTrim text))))))

/-- `cleanTask`:
`task.trim().replace(/^(and|then|also|plus)\s+/gi, '').replace(/\s+/g,
' ').replace(/^./, char => char.toUpperCase())`. -/
def cleanTask (task : Str) : Str :=
  capitalizeFirst
    (replaceScan matchWsRun " ".toList
      (stripLeadingAlt (["and", "then", "also", "plus"].map String.toList)
        (jsTrim task)))

/-- `createFailureResult(text, reason)` (the `reason` string is discarded by
the source as well: it is not part of the returned object). -/
def createFailureResult (text : Str) : ParseResult :=
  { tasks := []
    originalText := text
    confidence := 0
    strategy := ParseStrategy.FALLBACK
    success := false }

/-- `createFallbackResult(text)`: preserve the cleaned whole text as a single
task when `preserveOriginalOnFailure` is set and the cleaned text meets
`minTaskLength`. -/
def createFallbackResult (opts : ParseOptions) (text : Str) : ParseResult :=
  let cleanedText := cleanTask text
  { tasks :=
      if opts.preserveOriginalOnFailure ∧ opts.minTaskLength ≤ cleanedText.length
      then [cleanedText] else []
    originalText := text
    confidence := 30
    strategy := ParseStrategy.FALLBACK
    success :=
      opts.preserveOriginalOnFailure ∧ opts.minTaskLength ≤ cleanedText.length }

/-- Whether `new RegExp("\\b(" + alternation + ")\\b", "gi")` compiles, for an
alternation of literal phrases.  An ECMAScript pattern `Alternative` cannot
begin with a bare quantifier character (`*`, `+`, `?`): a quantifier must
follow an `Atom`, and neither the main grammar's `PatternCharacter` nor
Annex B's `ExtendedPatternCharacter` admits these characters, so `new RegExp`
throws `SyntaxError: … nothing to repeat`.  For alternatives built only from
word characters, spaces, `&` and `+` — the shape of `CONJUNCTIONS` — this is
the only way compilation can fail. -/
def jsAlternationCompiles (alts : List Str) : Bool :=
  alts.all fun a =>
    match a with
    | '+' :: _ => false
    | '*' :: _ => false
    | '?' :: _ => false
    | _ => true

/-- The JS `\w` word-character class (for `\b`). -/
def isWordChar (c : Char) : Bool :=
  c.isAlpha || c.isDigit || c = '_'

/-- `\b` between two characters (`none` = edge of the string): a word
boundary holds when exactly one side is a word character. -/
def boundary (a b : Option Char) : Bool :=
  ((a.map isWordChar).getD false) != ((b.map isWordChar).getD false)

/-- Try to match `\b(alt₁|alt₂|…)\b` (flags `gi`) at the current position:
alternatives in order, case-insensitively, with word boundaries on both
sides; `prev` is the character just before the position.  Returns the number
of characters matched. -/
def tryMatchConj (alts : List Str) (prev : Option Char) (l : Str) : Option Nat :=
  alts.findSome? fun a =>
    match matchLitCI a l with
    | some n =>
      if boundary prev l.head? && boundary ((l.take n).getLast?) ((l.drop n).head?) then
        some n
      else none
    | none => none

/-- JS `text.split(pattern)` for `pattern = /\b(conj₁|…)\b/gi`: pieces
between matches, with the capture group (the matched conjunction) spliced in
between consecutive pieces.  Fuel recursion as in `replaceScanFuel`. -/
def conjSplitFuel (alts : List Str) : Nat → Str → Option Char → Str → List Str
  | _, [], _, acc => [acc.reverse]
  | 0, l, _, acc => [acc.reverse ++ l]
  | fuel + 1, c :: cs, prev, acc =>
    match tryMatchConj alts prev (c :: cs) with
    | some n =>
      let matched := (c :: cs).take (max n 1)
      let rest := (c :: cs).drop (max n 1)
      acc.reverse :: matched :: conjSplitFuel alts fuel rest matched.getLast? []
    | none => conjSplitFuel alts fuel cs (some c) (c :: acc)

/-- JS `text.split(/\b(CONJUNCTIONS…)\b/gi)`. -/
def conjSplit (alts : List Str) (l : Str) : List Str :=
  conjSplitFuel alts (l.length + 1) l none []

/-- `tryConjunctionSplit`.  Its first statement,
`new RegExp('\\b(' + CONJUNCTIONS.join('|') + ')\\b', 'gi')`, throws a
`SyntaxError` for this `CONJUNCTIONS` list — the joined alternation contains
the bare-quantifier alternative `+` (see `jsAlternationCompiles`) — so the
function always throws before reaching the split; the guarded branch below
embeds the remaining statements faithfully but is unreachable. -/
def tryConjunctionSplit (opts : ParseOptions) (text : Str) : Except Unit ParseResult :=
  if jsAlternationCompiles CONJUNCTIONS then
    let parts := (conjSplit CONJUNCTIONS text).filter
      (fun part => part ≠ [] ∧ toLowerStr (jsTrim part) ∉ CONJUNCTIONS)
    if parts.length > 1 then
      let tasks :=
        ((parts.map cleanTask).filter
          (fun task => opts.minTaskLength ≤ task.length)).take opts.maxTasks
      if tasks.length > 1 then
        Except.ok
          { tasks := tasks
            originalText := text
            confidence := 90
            strategy := ParseStrategy.CONJUNCTION_SPLIT
            success := true }
      else Except.ok (createFailureResult text)
    else Except.ok (createFailureResult text)
  else Except.error ()

/-- `tryPunctuationSplit`: suppressed by a single-task indicator, else split
on `/[,.;]+/`, drop whitespace-only pieces, clean, filter by length,
truncate. -/
def tryPunctuationSplit (opts : ParseOptions) (text : Str) : ParseResult :=
  if SINGLE_TASK_INDICATORS.any (fun indicator => jsIncludes indicator text) then
    createFailureResult text
  else
    let parts := (splitRuns (fun c => c = ',' || c = '.' || c = ';') text).filter
      (fun part => jsTrim part ≠ [])
    if parts.length > 1 then
      let tasks :=
        ((parts.map cleanTask).filter
          (fun task => opts.minTaskLength ≤ task.length)).take opts.maxTasks
      if tasks.length > 1 then
        { tasks := tasks
          originalText := text
          confidence := 70
          strategy := ParseStrategy.PUNCTUATION_SPLIT
          success := true }
      else createFailureResult text
    else createFailureResult text

/-- The word loop of `tryActionVerbSplit`, including the final-task flush:
`words` is the remaining input, `current` the accumulating current task,
`tasks` the closed tasks.  A word (or the two-word phrase it starts,
`(word + ' ' + (words[i+1] || '')).trim()`) that is an action verb closes the
current task when one is already non-empty. -/
def avsGo (minLen : Nat) : List Str → List Str → List Str → List Str
  | [], current, tasks =>
    if current ≠ [] then
      let taskText := cleanTask (List.intercalate " ".toList current)
      if minLen ≤ taskText.length then tasks ++ [taskText] else tasks
    else tasks
  | w :: rest, current, tasks =>
    let twoWordVerb := jsTrim (w ++ ' ' :: (rest.head?.getD []))
    if (toLowerStr w ∈ ACTION_VERBS ∨ toLowerStr twoWordVerb ∈ ACTION_VERBS) ∧
        current ≠ [] then
      let taskText := cleanTask (List.intercalate " ".toList current)
      avsGo minLen rest [w]
        (if minLen ≤ taskText.length then tasks ++ [taskText] else tasks)
    else avsGo minLen rest (current ++ [w]) tasks

/-- `tryActionVerbSplit`: `const words = text.split(' ')`, the word loop,
then success iff more than one task was produced (the `maxTasks` truncation
is applied after that check). -/
def tryActionVerbSplit (opts : ParseOptions) (text : Str) : ParseResult :=
  let words := splitChar ' ' text
  let tasks := avsGo opts.minTaskLength words [] []
  if tasks.length > 1 then
    { tasks := tasks.take opts.maxTasks
      originalText := text
      confidence := 80
      strategy := ParseStrategy.ACTION_VERB_SPLIT
      success := true }
  else createFailureResult text

/-- `tryHybridSplit`: refine a successful conjunction split by further
splitting comma-containing, non-indicator tasks; adopted only when it
strictly increases the task count.  The nested `this.tryConjunctionSplit`
call is not wrapped in a `try`, so its `SyntaxError` propagates to the
caller. -/
def tryHybridSplit (opts : ParseOptions) (text : Str) : Except Unit ParseResult :=
  match tryConjunctionSplit opts text with
  | Except.error e => Except.error e
  | Except.ok conjunctionResult =>
    if conjunctionResult.success ∧ conjunctionResult.tasks.length > 1 then
      let refinedTasks := conjunctionResult.tasks.flatMap fun task =>
        if jsIncludes ",".toList task ∧
            ¬ SINGLE_TASK_INDICATORS.any (fun indicator => jsIncludes indicator task) then
          ((splitChar ',' task).map cleanTask).filter
            (fun t => opts.minTaskLength ≤ t.length)
        else [task]
      if refinedTasks.length > conjunctionResult.tasks.length then
        Except.ok
          { tasks := refinedTasks.take opts.maxTasks
            originalText := text
            confidence := 85
            strategy := ParseStrategy.HYBRID
            success := true }
      else Except.ok (createFailureResult text)
    else Except.ok (createFailureResult text)

/-- One step of the strategy-selection loop in `parseTasksFromSpeech`: a
thrown strategy (`Except.error`) is caught and skipped (`console.warn`); a
successful result with confidence > 0.5 replaces the best so far only when
strictly more confident (`!bestResult || result.confidence >
bestResult.confidence`). -/
def pickStep (best : Option ParseResult) (r : Except Unit ParseResult) : Option ParseResult :=
  match r with
  | Except.error _ => best
  | Except.ok result =>
    if result.success ∧ 50 < result.confidence then
      match best with
      | none => some result
      | some b => if b.confidence < result.confidence then some result else some b
    else best

/-- The strategy-selection loop. -/
def pickBest (init : Option ParseResult) (results : List (Except Unit ParseResult)) :
    Option ParseResult :=
  results.foldl pickStep init

/-- `parseTasksFromSpeech(text)`: guard empty/whitespace-only input,
preprocess, run the four strategies in order (conjunction, punctuation,
action verb, hybrid) keeping the best, and fall back to
`createFallbackResult` when none qualifies. -/
def parseTasksFromSpeech (opts : ParseOptions) (text : Str) : ParseResult :=
  if jsTrim text = [] then createFailureResult text
  else
    let cleanText := preprocessText text
    let strategyResults : List (Except Unit ParseResult) :=
      [tryConjunctionSplit opts cleanText,
       Except.ok (tryPunctuationSplit opts cleanText),
       Except.ok (tryActionVerbSplit opts cleanText),
       tryHybridSplit opts cleanText]
    match pickBest none strategyResults with
    | some bestResult => bestResult
    | none => createFallbackResult opts cleanText

/-! ## SpeechService (`src/services/speechService.ts`) and the permission
gate (`src/utils/permissions.ts`)

The speech-capture state machine is embedded as a transition function on the
service's fields, returning the new state, the list of callback events the
call dispatches synchronously, and whether the call throws (rejects).  The
outcome of the awaited `requestMicrophonePermission()` call is passed in as a
`PermissionResult` value — `requestMicrophonePermission` itself never throws:
every branch of its body returns a result object. -/

/-- `enum SpeechState` from the source. -/
inductive SpeechState
  | IDLE
  | LISTENING
  | PROCESSING
  | ERROR
deriving DecidableEq, Repr

/-- `enum PermissionStatus` from `src/utils/permissions.ts`. -/
inductive PermissionStatus
  | GRANTED
  | DENIED
  | UNDETERMINED
  | RESTRICTED
deriving DecidableEq, Repr

/-- `interface PermissionResult` from `src/utils/permissions.ts`. -/
structure PermissionResult where
  status : PermissionStatus
  canAskAgain : Bool
  granted : Bool
deriving DecidableEq, Repr

/-- An invocation of one of the four `SpeechCallbacks`
(`onStart`/`onResult`/`onEnd`/`onError`), with its arguments. -/
inductive SpeechEvent
  | onStart
  | onResult (transcript : Str) (confidence : Nat) (isFinal : Bool)
  | onEnd
  | onError (message : Str)
deriving DecidableEq, Repr

/-- `Platform.OS` values the service branches on. -/
inductive JsPlatform
  | web
  | ios
  | android
deriving DecidableEq, Repr

/-- The mutable fields of a `SpeechService` instance that the lifecycle
methods read and write: `state`, whether `this.recognition` is non-null, and
whether `this.timeoutId` is non-null. -/
structure ServiceState where
  state : SpeechState
  hasRecognition : Bool
  hasTimeout : Bool
deriving DecidableEq, Repr

/-- `SpeechService.startListening()`.  Arguments beyond the instance state:
the result of the awaited `requestMicrophonePermission()`, `Platform.OS`,
whether `window.SpeechRecognition || window.webkitSpeechRecognition` exists,
and `options.timeout` (0 = unset/falsy).  Returns the updated instance
state, the callback events dispatched synchronously during the call, and
whether the call throws.

* Denied permission: `throw new Error('Microphone permission denied')` is
  caught by the method's own `catch`, which sets `state = ERROR`, invokes
  `onError` once (then `handlePermissionError`, which only shows an alert)
  and rethrows — no `onStart`, `onResult` or `onEnd`.
* Granted, web, recogniser available: `state = LISTENING`, `onStart`, a
  recogniser is constructed and started and the timeout armed; the
  recogniser's own events arrive asynchronously, after the call returns.
* Granted, web, no recogniser: `startWebSpeechRecognition` throws; its
  `catch` sets `state = ERROR` and invokes `onError`, rethrows into the
  outer `catch`, which sets `state = ERROR` and invokes `onError` a second
  time, then rethrows.
* Granted, mobile: `state = LISTENING`, `onStart`; `simulateSpeechRecognition`
  only schedules timers, so nothing else happens during the call. -/
def startListening (svc : ServiceState) (perm : PermissionResult)
    (platform : JsPlatform) (webSpeechAvailable : Bool) (timeoutOpt : Nat) :
    ServiceState × List SpeechEvent × Bool :=
  if perm.granted = false then
    ({ svc with state := SpeechState.ERROR },
     [SpeechEvent.onError "Microphone permission denied".toList], true)
  else
    match platform with
    | JsPlatform.web =>
      if webSpeechAvailable then
        ({ state := SpeechState.LISTENING
           hasRecognition := true
           hasTimeout := timeoutOpt != 0 },
         [SpeechEvent.onStart], false)
      else
        ({ svc with state := SpeechState.ERROR },
         [SpeechEvent.onStart,
          SpeechEvent.onError "Speech recognition not supported in this browser".toList,
          SpeechEvent.onError "Speech recognition not supported in this browser".toList],
         true)
    | _ =>
      ({ svc with state := SpeechState.LISTENING }, [SpeechEvent.onStart], false)

/-- `SpeechService.stopListening()`: clear the timeout, stop and null out the
recogniser if present, set `state = IDLE`, invoke `onEnd`.  None of these
steps can throw (the `catch` branch is dead), so the call never rejects, from
any state — in particular from `IDLE` before any `startListening()`. -/
def stopListening (_svc : ServiceState) : ServiceState × List SpeechEvent × Bool :=
  ({ state := SpeechState.IDLE, hasRecognition := false, hasTimeout := false },
   [SpeechEvent.onEnd], false)

/-- Recogniser for `onError` events. -/
def isOnError : SpeechEvent → Bool
  | SpeechEvent.onError _ => true
  | _ => false

/-- Recogniser for `onResult` events. -/
def isOnResult : SpeechEvent → Bool
  | SpeechEvent.onResult _ _ _ => true
  | _ => false

/-- Recogniser for `onEnd` events. -/
def isOnEnd : SpeechEvent → Bool
  | SpeechEvent.onEnd => true
  | _ => false

/-! ## CloudSpeechService (`src/services/cloudSpeechService.ts`)

The Google Cloud Speech response parser and the transcription entry point.
The response JSON is embedded with `Option` for the fields the interface
marks optional; `x || fallback` on a possibly-undefined field becomes
`Option.getD`. -/

/-- One entry of `results[].alternatives[]`. -/
structure SpeechAlternative where
  transcript : Option Str
  confidence : Option Nat
deriving DecidableEq, Repr

/-- One entry of `results[]`. -/
structure SpeechRecognitionResult where
  alternatives : Option (List SpeechAlternative)
deriving DecidableEq, Repr

/-- The `error` object of a failed API response. -/
structure GoogleSpeechError where
  code : Nat
  message : Str
  status : Str
deriving DecidableEq, Repr

/-- `interface GoogleSpeechResponse` from the source. -/
structure GoogleSpeechResponse where
  results : Option (List SpeechRecognitionResult)
  error : Option GoogleSpeechError
deriving DecidableEq, Repr

/-- `interface CloudSpeechResult` from the source. -/
structure CloudSpeechResult where
  transcript : Str
  confidence : Nat
  success : Bool
  error : Option Str
deriving DecidableEq, Repr

/-- `CloudSpeechService.parseGoogleCloudResponse(response)`: an API `error`
object, an absent or empty `results` list, or a first result with no
alternatives each return an empty transcript with confidence 0 and
`success: false`; otherwise the first alternative of the first result is
selected. -/
def parseGoogleCloudResponse (response : GoogleSpeechResponse) : CloudSpeechResult :=
  match response.error with
  | some e =>
    { transcript := []
      confidence := 0
      success := false
      error := some ("API Error: ".toList ++ e.message) }
  | none =>
    match response.results.getD [] with
    | [] =>
      { transcript := []
        confidence := 0
        success := false
        error := some "No speech detected in audio".toList }
    | firstResult :: _ =>
      match firstResult.alternatives.getD [] with
      | [] =>
        { transcript := []
          confidence := 0
          success := false
          error := some "No transcription alternatives found".toList }
      | bestAlternative :: _ =>
        { transcript := bestAlternative.transcript.getD []
          confidence := bestAlternative.confidence.getD 0
          success := true
          error := none }

/-- `CloudSpeechService.transcribeAudio(audioFilePath, language)`.  The
un-initialized guard throws before the `try`, so only that case rejects.
`requestOutcome` stands for the awaited file-read/encode/HTTP steps: either
an exception message, or the decoded `GoogleSpeechResponse`; an exception is
caught and converted into a failure `CloudSpeechResult`, a response is fed to
`parseGoogleCloudResponse`. -/
def transcribeAudio (isInitialized : Bool)
    (requestOutcome : Except Str GoogleSpeechResponse) :
    Except Str CloudSpeechResult :=
  if isInitialized = false then
    Except.error "Speech service not initialized. Call initialize() first.".toList
  else
    Except.ok
      (match requestOutcome with
       | Except.error errorMessage =>
         { transcript := []
           confidence := 0
           success := false
           error := some errorMessage }
       | Except.ok response => parseGoogleCloudResponse response)

/-! ## Helper lemmas -/

/-- `tryConjunctionSplit` throws on every input: constructing its `RegExp`
raises `SyntaxError` because the joined `CONJUNCTIONS` alternation contains
the bare-quantifier alternative `+`. -/
theorem tryConjunctionSplit_throws (opts : ParseOptions) (text : Str) :
    tryConjunctionSplit opts text = Except.error () := by
  unfold tryConjunctionSplit
  exact if_neg (by decide)

/-- `tryHybridSplit` throws on every input: the `SyntaxError` of its nested
`tryConjunctionSplit` call propagates. -/
theorem tryHybridSplit_throws (opts : ParseOptions) (text : Str) :
    tryHybridSplit opts text = Except.error () := by
  unfold tryHybridSplit
  rw [tryConjunctionSplit_throws]

/-- A step of the selection loop only ever keeps the previous best or adopts
the strategy result it is looking at. -/
theorem pickStep_cases (best : Option ParseResult) (r : Except Unit ParseResult)
    (x : ParseResult) (h : pickStep best r = some x) :
    best = some x ∨ r = Except.ok x := by
  cases r with
  | error e => exact Or.inl h
  | ok result =>
    cases best with
    | none =>
      simp only [pickStep] at h
      split at h
      · exact Or.inr (congrArg Except.ok (Option.some.inj h))
      · exact Or.inl h
    | some b =>
      simp only [pickStep] at h
      split at h
      · split at h
        · exact Or.inr (congrArg Except.ok (Option.some.inj h))
        · exact Or.inl h
      · exact Or.inl h

/-- The selection loop returns its initial value or one of the non-throwing
strategy results of the list. -/
theorem pickBest_mem (init : Option ParseResult) (l : List (Except Unit ParseResult))
    (x : ParseResult) (h : pickBest init l = some x) :
    init = some x ∨ Except.ok x ∈ l := by
  induction l generalizing init with
  | nil => exact Or.inl h
  | cons r rs ih =>
    have h' : pickBest (pickStep init r) rs = some x := h
    rcases ih (pickStep init r) h' with h1 | h1
    · rcases pickStep_cases init r x h1 with h2 | h2
      · exact Or.inl h2
      · right
        rw [h2]
        exact List.mem_cons_self _ _
    · exact Or.inr (List.mem_cons_of_mem r h1)

/-- On non-empty input, `parseTasksFromSpeech` returns the punctuation
strategy's result, the action-verb strategy's result, or the fallback, each
applied to the preprocessed text: the conjunction and hybrid strategies
always throw and are skipped by the selection loop. -/
theorem parse_cases (opts : ParseOptions) (text : Str) (h : ¬ jsTrim text = []) :
    parseTasksFromSpeech opts text = tryPunctuationSplit opts (preprocessText text) ∨
    parseTasksFromSpeech opts text = tryActionVerbSplit opts (preprocessText text) ∨
    parseTasksFromSpeech opts text = createFallbackResult opts (preprocessText text) := by
  have hparse : parseTasksFromSpeech opts text =
      match pickBest none
        [tryConjunctionSplit opts (preprocessText text),
         Except.ok (tryPunctuationSplit opts (preprocessText text)),
         Except.ok (tryActionVerbSplit opts (preprocessText text)),
         tryHybridSplit opts (preprocessText text)] with
      | some bestResult => bestResult
      | none => createFallbackResult opts (preprocessText text) := by
    unfold parseTasksFromSpeech
    rw [if_neg h]
  rw [hparse]
  cases hp : pickBest none
      [tryConjunctionSplit opts (preprocessText text),
       Except.ok (tryPunctuationSplit opts (preprocessText text)),
       Except.ok (tryActionVerbSplit opts (preprocessText text)),
       tryHybridSplit opts (preprocessText text)] with
  | none => exact Or.inr (Or.inr rfl)
  | some b =>
    rcases pickBest_mem none _ b hp with h1 | h1
    · exact absurd h1 (by simp)
    · rw [tryConjunctionSplit_throws, tryHybridSplit_throws] at h1
      simp only [List.mem_cons, List.not_mem_nil, or_false] at h1
      rcases h1 with h1 | h1 | h1 | h1
      · exact absurd h1 (by simp)
      · exact Or.inl (Except.ok.inj h1)
      · exact Or.inr (Or.inl (Except.ok.inj h1))
      · exact absurd h1 (by simp)

/-- The punctuation strategy stamps its input as `originalText`. -/
theorem tryPunctuationSplit_originalText (opts : ParseOptions) (text : Str) :
    (tryPunctuationSplit opts text).originalText = text := by
  simp only [tryPunctuationSplit]
  split
  · rfl
  · split
    · split <;> rfl
    · rfl

/-- The action-verb strategy stamps its input as `originalText`. -/
theorem tryActionVerbSplit_originalText (opts : ParseOptions) (text : Str) :
    (tryActionVerbSplit opts text).originalText = text := by
  simp only [tryActionVerbSplit]
  split <;> rfl

/-- The fallback stamps its input as `originalText`. -/
theorem createFallbackResult_originalText (opts : ParseOptions) (text : Str) :
    (createFallbackResult opts text).originalText = text := rfl

/-- The data-model invariant of a `ParseResult` under given options, as the
spec states it: success implies some task; the fallback strategy caps the
confidence at 0.3; at most `maxTasks` tasks; every task meets
`minTaskLength`. -/
def resultWellFormed (opts : ParseOptions) (r : ParseResult) : Prop :=
  (r.success = true → r.tasks ≠ []) ∧
  (r.strategy = ParseStrategy.FALLBACK → r.confidence ≤ 30) ∧
  r.tasks.length ≤ opts.maxTasks ∧
  ∀ t ∈ r.tasks, opts.minTaskLength ≤ t.length

/-- Failure results are well-formed. -/
theorem createFailureResult_wf (opts : ParseOptions) (text : Str) :
    resultWellFormed opts (createFailureResult text) := by
  refine ⟨fun hs => ?_, fun _ => ?_, ?_, ?_⟩
  · exact absurd hs (by simp [createFailureResult])
  · exact Nat.le_of_lt (by simp [createFailureResult])
  · simp [createFailureResult]
  · simp [createFailureResult]

/-- Fallback results are well-formed when `maxTasks ≥ 1`. -/
theorem createFallbackResult_wf (opts : ParseOptions) (text : Str)
    (hmax : 1 ≤ opts.maxTasks) :
    resultWellFormed opts (createFallbackResult opts text) := by
  simp only [resultWellFormed, createFallbackResult]
  by_cases hC : opts.preserveOriginalOnFailure = true ∧
      opts.minTaskLength ≤ (cleanTask text).length
  · rw [if_pos hC]
    refine ⟨fun _ => by simp, fun _ => by norm_num, by simpa using hmax, ?_⟩
    intro t ht
    rw [List.mem_singleton] at ht
    subst ht
    exact hC.2
  · rw [if_neg hC]
    refine ⟨fun hs => ?_, fun _ => by norm_num, by simp, by simp⟩
    exact absurd (of_decide_eq_true hs) hC

/-- A successful strategy record is well-formed once its task list is
non-empty, within `maxTasks`, and filtered by `minTaskLength`. -/
theorem successRecord_wf (opts : ParseOptions) (tasks : List Str) (text : Str)
    (conf : Nat) (strat : ParseStrategy)
    (hstrat : strat ≠ ParseStrategy.FALLBACK)
    (hnonempty : tasks ≠ [])
    (hlen : tasks.length ≤ opts.maxTasks)
    (hmin : ∀ t ∈ tasks, opts.minTaskLength ≤ t.length) :
    resultWellFormed opts
      { tasks := tasks, originalText := text, confidence := conf,
        strategy := strat, success := true } :=
  ⟨fun _ => hnonempty, fun hst => absurd hst hstrat, hlen, hmin⟩

/-- Punctuation-split results are well-formed. -/
theorem tryPunctuationSplit_wf (opts : ParseOptions) (text : Str) :
    resultWellFormed opts (tryPunctuationSplit opts text) := by
  simp only [tryPunctuationSplit]
  split
  · exact createFailureResult_wf opts text
  · split
    · split
      · rename_i hparts htasks
        apply successRecord_wf
        · decide
        · exact List.length_pos.mp (lt_of_le_of_lt (Nat.zero_le 1) htasks)
        · rw [List.length_take]
          exact min_le_left _ _
        · intro t ht
          have ht' := List.take_subset _ _ ht
          rw [List.mem_filter] at ht'
          exact of_decide_eq_true ht'.2
      · exact createFailureResult_wf opts text
    · exact createFailureResult_wf opts text

/-- Every task the action-verb word loop accumulates meets `minLen` (both
the in-loop close and the final flush are guarded by the length check). -/
theorem avsGo_minLen (minLen : Nat) (words : List Str) :
    ∀ (current tasks : List Str), (∀ t ∈ tasks, minLen ≤ t.length) →
      ∀ t ∈ avsGo minLen words current tasks, minLen ≤ t.length := by
  induction words with
  | nil =>
    intro current tasks h t ht
    simp only [avsGo] at ht
    split at ht
    · split at ht
      · rename_i hcur hlen
        rcases List.mem_append.mp ht with h1 | h1
        · exact h t h1
        · rw [List.mem_singleton] at h1
          subst h1
          exact hlen
      · exact h t ht
    · exact h t ht
  | cons w rest ih =>
    intro current tasks h t ht
    simp only [avsGo] at ht
    split at ht
    · refine ih _ _ ?_ t ht
      intro u hu
      split at hu
      · rename_i hcond hlen
        rcases List.mem_append.mp hu with h1 | h1
        · exact h u h1
        · rw [List.mem_singleton] at h1
          subst h1
          exact hlen
      · exact h u hu
    · exact ih _ _ h t ht

/-- Action-verb-split results are well-formed when `maxTasks ≥ 1`. -/
theorem tryActionVerbSplit_wf (opts : ParseOptions) (text : Str)
    (hmax : 1 ≤ opts.maxTasks) :
    resultWellFormed opts (tryActionVerbSplit opts text) := by
  simp only [tryActionVerbSplit]
  split
  · rename_i htasks
    apply successRecord_wf
    · decide
    · apply List.length_pos.mp
      rw [List.length_take]
      omega
    · rw [List.length_take]
      exact min_le_left _ _
    · intro t ht
      exact avsGo_minLen opts.minTaskLength _ _ _ (by simp) t (List.take_subset _ _ ht)
  · exact createFailureResult_wf opts text

/-! ## Claim theorems -/

/-- C1 (code bug): the claim says that on any input with at least two
segments joined by a recognized conjunction, `ConjunctionSplit` succeeds and
produces one task per segment.  In the code it cannot ever succeed:
`tryConjunctionSplit` throws a `SyntaxError` while constructing its `RegExp`
(the `+` entry of `CONJUNCTIONS` becomes a bare-quantifier alternative of the
joined pattern), shown here on the two-segment input
`"buy milk and call mom"`; the parse of that input is then served by a
different strategy. -/
theorem conjunctionSplit_regex_throws_on_conjoined_input :
    tryConjunctionSplit defaultParseOptions ("buy milk and call mom".toList) =
      Except.error () ∧
    (parseTasksFromSpeech defaultParseOptions
        ("Buy milk and call mom".toList)).strategy ≠
      ParseStrategy.CONJUNCTION_SPLIT := by
  constructor
  · exact tryConjunctionSplit_throws _ _
  · decide

/-- C2 (code bug): the claim (and the repository's own test) expects
`parseTasksFromSpeech("Buy milk and call mom")` to give
`["Buy milk", "Call mom"]` via `ConjunctionSplit`.  Because the conjunction
strategy always throws, the action-verb strategy wins instead, leaving the
dangling conjunction in the first task: the full result is
`["Buy milk and", "Call mom"]`, strategy `ACTION_VERB_SPLIT`, confidence
0.8. -/
theorem parse_buy_milk_and_call_mom_eval :
    parseTasksFromSpeech defaultParseOptions ("Buy milk and call mom".toList) =
      { tasks := ["Buy milk and".toList, "Call mom".toList]
        originalText := "buy milk and call mom".toList
        confidence := 80
        strategy := ParseStrategy.ACTION_VERB_SPLIT
        success := true } := by
  decide

/-- C3 (confirmed): `parseTasksFromSpeech` is total — the embedding is a
total function, and the two strategies that throw (`tryConjunctionSplit`,
`tryHybridSplit`) are `Except` values consumed by the selection loop — and on
empty or whitespace-only input it returns `success = false` and `tasks = []`
for every `ParseOptions`, in particular regardless of
`preserveOriginalOnFailure`. -/
theorem parse_total_empty_input (opts : ParseOptions) (text : Str)
    (h : jsTrim text = []) :
    (parseTasksFromSpeech opts text).success = false ∧
    (parseTasksFromSpeech opts text).tasks = [] := by
  unfold parseTasksFromSpeech
  rw [if_pos h]
  exact ⟨rfl, rfl⟩

/-- Witness for C3 at whitespace-only input and an options record with
`preserveOriginalOnFailure = true` (the defaults). -/
theorem parse_total_empty_input_witness :
    jsTrim ("   ".toList) = [] ∧
    ((parseTasksFromSpeech defaultParseOptions ("   ".toList)).success = false ∧
     (parseTasksFromSpeech defaultParseOptions ("   ".toList)).tasks = []) :=
  ⟨by decide, parse_total_empty_input defaultParseOptions ("   ".toList) (by decide)⟩

/-- C4 (corrected, counterexample): with `maxTasks = 0` the action-verb
strategy reports success after checking the untruncated task count but
returns the truncated (empty) task list, so `success = true` with
`tasks = []` — refuting the claimed invariant for arbitrary
`ParseOptions`. -/
theorem parse_maxTasks_zero_success_with_empty_tasks :
    (parseTasksFromSpeech (⟨3, 0, true, "en".toList⟩ : ParseOptions)
      ("buy milk call mom".toList)).success = true ∧
    (parseTasksFromSpeech (⟨3, 0, true, "en".toList⟩ : ParseOptions)
      ("buy milk call mom".toList)).tasks = [] := by
  decide

/-- C4 (corrected, amended): for every input and every `ParseOptions` with
`maxTasks ≥ 1`, the parse result satisfies the data-model invariant:
`success` implies a non-empty task list, the fallback strategy has confidence
at most 0.3, at most `maxTasks` tasks, and every task meets
`minTaskLength`. -/
theorem parse_invariants_of_maxTasks_pos (opts : ParseOptions) (text : Str)
    (hmax : 1 ≤ opts.maxTasks) :
    resultWellFormed opts (parseTasksFromSpeech opts text) := by
  by_cases h : jsTrim text = []
  · unfold parseTasksFromSpeech
    rw [if_pos h]
    exact createFailureResult_wf opts text
  · rcases parse_cases opts text h with h1 | h1 | h1 <;> rw [h1]
    · exact tryPunctuationSplit_wf opts (preprocessText text)
    · exact tryActionVerbSplit_wf opts (preprocessText text) hmax
    · exact createFallbackResult_wf opts (preprocessText text) hmax

/-- Witness for the amended C4 at the default options and a concrete
utterance. -/
theorem parse_invariants_of_maxTasks_pos_witness :
    1 ≤ defaultParseOptions.maxTasks ∧
    resultWellFormed defaultParseOptions
      (parseTasksFromSpeech defaultParseOptions ("Buy milk and call mom".toList)) :=
  ⟨by decide,
   parse_invariants_of_maxTasks_pos defaultParseOptions
     ("Buy milk and call mom".toList) (by decide)⟩

/-- C5 (confirmed): `parseTasksFromSpeech("Buy groceries: milk, bread, and
eggs")` with default options yields exactly one task, and that task contains
the substring `groceries` (the `groceries:` single-task indicator suppresses
punctuation splitting; the single task is served by the fallback). -/
theorem parse_groceries_single_task :
    (parseTasksFromSpeech defaultParseOptions
        ("Buy groceries: milk, bread, and eggs".toList)).tasks =
      ["Buy groceries: milk, bread and eggs".toList] ∧
    jsIncludes ("groceries".toList)
      ("Buy groceries: milk, bread and eggs".toList) = true := by
  constructor
  · decide
  · decide

/-- C6 (corrected, counterexample): with `minTaskLength = 10` and the other
options default — in particular `preserveOriginalOnFailure = true` — parsing
`"hi and bye"` does not give `tasks = []`: no strategy succeeds, but the
cleaned whole text `"Hi and bye"` has length exactly 10, so the fallback
preserves it as a single task. -/
theorem parse_min10_hi_and_bye_fallback_task :
    (parseTasksFromSpeech (⟨10, 10, true, "en".toList⟩ : ParseOptions)
      ("hi and bye".toList)).tasks = ["Hi and bye".toList] ∧
    (parseTasksFromSpeech (⟨10, 10, true, "en".toList⟩ : ParseOptions)
      ("hi and bye".toList)).tasks ≠ [] := by
  constructor
  · decide
  · decide

/-- C6 (corrected, amended): with `minTaskLength = 10` and
`preserveOriginalOnFailure = false` (other options default),
`parseTasksFromSpeech("hi and bye")` returns `tasks = []` (and
`success = false`). -/
theorem parse_min10_no_preserve_hi_and_bye_empty :
    (parseTasksFromSpeech (⟨10, 10, false, "en".toList⟩ : ParseOptions)
      ("hi and bye".toList)).tasks = [] ∧
    (parseTasksFromSpeech (⟨10, 10, false, "en".toList⟩ : ParseOptions)
      ("hi and bye".toList)).success = false := by
  constructor
  · decide
  · decide

/-- C7 (confirmed): whenever `startListening()` runs while the microphone
permission request reports `granted = false`, the call ends in the `ERROR`
state, invokes `onError` exactly once, and invokes `onResult` and `onEnd`
zero times — for every prior service state, platform, recogniser
availability and timeout option. -/
theorem startListening_denied_error (svc : ServiceState) (perm : PermissionResult)
    (platform : JsPlatform) (webSpeechAvailable : Bool) (timeoutOpt : Nat)
    (h : perm.granted = false) :
    (startListening svc perm platform webSpeechAvailable timeoutOpt).1.state =
      SpeechState.ERROR ∧
    ((startListening svc perm platform webSpeechAvailable timeoutOpt).2.1.filter
        isOnError).length = 1 ∧
    ((startListening svc perm platform webSpeechAvailable timeoutOpt).2.1.filter
        isOnResult).length = 0 ∧
    ((startListening svc perm platform webSpeechAvailable timeoutOpt).2.1.filter
        isOnEnd).length = 0 := by
  unfold startListening
  rw [if_pos h]
  exact ⟨rfl, rfl, rfl, rfl⟩

/-- Witness for C7: a denied permission result against an idle service on the
web platform. -/
theorem startListening_denied_error_witness :
    (⟨PermissionStatus.DENIED, false, false⟩ : PermissionResult).granted = false ∧
    ((startListening ⟨SpeechState.IDLE, false, false⟩
        ⟨PermissionStatus.DENIED, false, false⟩ JsPlatform.web true 10000).1.state =
      SpeechState.ERROR ∧
     ((startListening ⟨SpeechState.IDLE, false, false⟩
        ⟨PermissionStatus.DENIED, false, false⟩ JsPlatform.web true 10000).2.1.filter
        isOnError).length = 1 ∧
     ((startListening ⟨SpeechState.IDLE, false, false⟩
        ⟨PermissionStatus.DENIED, false, false⟩ JsPlatform.web true 10000).2.1.filter
        isOnResult).length = 0 ∧
     ((startListening ⟨SpeechState.IDLE, false, false⟩
        ⟨PermissionStatus.DENIED, false, false⟩ JsPlatform.web true 10000).2.1.filter
        isOnEnd).length = 0) :=
  ⟨rfl,
   startListening_denied_error ⟨SpeechState.IDLE, false, false⟩
     ⟨PermissionStatus.DENIED, false, false⟩ JsPlatform.web true 10000 rfl⟩

/-- C8 (confirmed): `stopListening()` called while the service is `IDLE`
(in particular before any `startListening()`) does not throw, invokes
`onEnd` exactly once, and leaves the service in the `IDLE` state. -/
theorem stopListening_idle_noop (svc : ServiceState)
    (_h : svc.state = SpeechState.IDLE) :
    stopListening svc =
      (⟨SpeechState.IDLE, false, false⟩, [SpeechEvent.onEnd], false) := rfl

/-- Witness for C8: a freshly constructed service (IDLE, no recogniser, no
timer). -/
theorem stopListening_idle_noop_witness :
    (⟨SpeechState.IDLE, false, false⟩ : ServiceState).state = SpeechState.IDLE ∧
    stopListening ⟨SpeechState.IDLE, false, false⟩ =
      (⟨SpeechState.IDLE, false, false⟩, [SpeechEvent.onEnd], false) :=
  ⟨rfl, stopListening_idle_noop ⟨SpeechState.IDLE, false, false⟩ rfl⟩

/-- A cloud response without usable results: the `results` list is absent or
empty, or its first entry has an absent or empty `alternatives` list. -/
def noUsableResults (response : GoogleSpeechResponse) : Prop :=
  response.results.getD [] = [] ∨
  ∃ firstResult rest, response.results.getD [] = firstResult :: rest ∧
    firstResult.alternatives.getD [] = []

/-- C9 (confirmed): for every response without usable results — whatever its
`error` field — `parseGoogleCloudResponse` yields an empty transcript,
confidence 0 and `success = false`, and `transcribeAudio` on an initialized
service surfaces that value as an ordinary result rather than a
rejection. -/
theorem transcribe_no_results_soft_failure (response : GoogleSpeechResponse)
    (h : noUsableResults response) :
    (parseGoogleCloudResponse response).transcript = [] ∧
    (parseGoogleCloudResponse response).confidence = 0 ∧
    (parseGoogleCloudResponse response).success = false ∧
    transcribeAudio true (Except.ok response) =
      Except.ok (parseGoogleCloudResponse response) := by
  refine ⟨?_, ?_, ?_, rfl⟩ <;>
  · unfold parseGoogleCloudResponse
    split
    · rfl
    · split
      · rfl
      · split
        · rfl
        · rename_i firstRes tl0 heqres xscr bestAlt tl1 heqalt
          rcases h with h1 | ⟨fr, rs, h1, h2⟩
          · rw [h1] at heqres
            cases heqres
          · rw [h1] at heqres
            cases heqres
            rw [h2] at heqalt
            cases heqalt

/-- Witness for C9: the empty-`results` response. -/
theorem transcribe_no_results_soft_failure_witness :
    noUsableResults ⟨some [], none⟩ ∧
    ((parseGoogleCloudResponse ⟨some [], none⟩).transcript = [] ∧
     (parseGoogleCloudResponse ⟨some [], none⟩).confidence = 0 ∧
     (parseGoogleCloudResponse ⟨some [], none⟩).success = false ∧
     transcribeAudio true (Except.ok ⟨some [], none⟩) =
       Except.ok (parseGoogleCloudResponse ⟨some [], none⟩)) :=
  ⟨Or.inl rfl, transcribe_no_results_soft_failure ⟨some [], none⟩ (Or.inl rfl)⟩

/-- C10 (confirmed): on every non-empty, non-whitespace input, the
`originalText` of the parse result is the preprocessed text — trimmed,
lowercased, whitespace-collapsed, conjunction artifacts normalized, leading
filler phrases stripped (`preprocessText`) — not the verbatim caller
input. -/
theorem parse_originalText_preprocessed (opts : ParseOptions) (text : Str)
    (h : ¬ jsTrim text = []) :
    (parseTasksFromSpeech opts text).originalText = preprocessText text := by
  rcases parse_cases opts text h with h1 | h1 | h1 <;> rw [h1]
  · exact tryPunctuationSplit_originalText opts (preprocessText text)
  · exact tryActionVerbSplit_originalText opts (preprocessText text)
  · exact createFallbackResult_originalText opts (preprocessText text)

/-- Witness for C10 at an input that preprocessing visibly changes (case,
leading filler phrase), demonstrating that `originalText` is not the
verbatim input. -/
theorem parse_originalText_preprocessed_witness :
    ¬ jsTrim ("I need to Buy milk and call MOM".toList) = [] ∧
    (parseTasksFromSpeech defaultParseOptions
        ("I need to Buy milk and call MOM".toList)).originalText =
      preprocessText ("I need to Buy milk and call MOM".toList) ∧
    preprocessText ("I need to Buy milk and call MOM".toList) ≠
      ("I need to Buy milk and call MOM".toList) :=
  ⟨by decide,
   parse_originalText_preprocessed defaultParseOptions
     ("I need to Buy milk and call MOM".toList) (by decide),
   by decide⟩
